import Mathlib

/-
  Verification development for the bitcoin price tracker
  (src/crypto_tracker.py).

  Shallow embedding notes:
  - JSON values are modelled by the inductive `Json` below; JSON numbers are
    rationals (the tracker performs only exact-by-luck arithmetic on the small
    examples stated here, and the JSON text codec is an external collaborator
    of the system, so number values are carried as `Rat`).
  - The in-memory history `self.price_history` is a Python list of parsed JSON
    dicts; it is modelled as `List Json`.
  - The history file is modelled by `FileContent`: absent, unreadable/corrupt,
    or a parseable JSON array of entries (files written by the program always
    hold a JSON array; non-array file contents are outside the model).
  - Network responses are supplied by an oracle list, one entry per
    `requests.get` call; `fetch_price` consumes one per (re)issue.  An empty
    oracle means the next request has no answer yet: the call is still in
    flight (`FetchResult.exhausted`).  There is no network timeout, so a
    scheduling-loop check whose fetch is still in flight blocks the whole
    loop: the run ends in `TrackStop.blocked`, with no later checks, sleeps,
    completion notice or statistics.
  - Console prints and `time.sleep` calls are recorded as abstract `Event`s in
    an output trace (console text itself is an excluded external interface).
  - Python exceptions that escape a function are returned as explicit error
    values (`FetchResult.uncaught`, `TrackOut.err`); `requests` exceptions
    caught by the `except requests.exceptions.RequestException` clause are
    folded into the normal return paths exactly where the code catches them.
-/

namespace CryptoTracker

/-- A JSON value, as produced by response.json() and json.load. -/
inductive Json where
  | null : Json
  | bool : Bool → Json
  | num : Rat → Json
  | str : String → Json
  | arr : List Json → Json
  | obj : List (String × Json) → Json

/-- Errors that the tracker code can raise and does not catch. -/
inductive PyError where
  | valueError : PyError
  | keyError : String → PyError
  | typeError : PyError
  | zeroDivisionError : PyError
deriving DecidableEq

/-- Digit run of a Python base-10 int literal, with single underscores allowed
between digits (int accepts "1_000", rejects "1__0", "_1", "1_"). -/
def pyDigitsAux (acc : Nat) : List Char → Option Nat
  | [] => some acc
  | c :: cs =>
    if c.isDigit then pyDigitsAux (acc * 10 + (c.toNat - 48)) cs
    else if c = '_' then
      match cs with
      | [] => none
      | d :: ds => if d.isDigit then pyDigitsAux (acc * 10 + (d.toNat - 48)) ds else none
    else none

/-- A nonempty digit run (first char must be a digit). -/
def pyDigits : List Char → Option Nat
  | [] => none
  | c :: cs => if c.isDigit then pyDigitsAux (c.toNat - 48) cs else none

/-- Leading and trailing whitespace stripped, as int() does before parsing. -/
def pyStrip (s : String) : List Char :=
  ((s.toList.dropWhile Char.isWhitespace).reverse.dropWhile Char.isWhitespace).reverse

/-- Python int(s) on a string: optional sign then digits; `none` means int()
raises ValueError (e.g. on an HTTP-date such as "Wed, 21 Oct 2015 07:28:00 GMT"). -/
def pyIntOfString (s : String) : Option Int :=
  match pyStrip s with
  | '+' :: rest => (pyDigits rest).map (fun n => (n : Int))
  | '-' :: rest => (pyDigits rest).map (fun n => -(n : Int))
  | rest => (pyDigits rest).map (fun n => (n : Int))

/-- Body of an HTTP response: either response.json() raises (malformed JSON,
a requests exception caught by the handler), or a JSON object keyed by asset
id, as the price endpoint returns. -/
inductive Body where
  | malformed : Body
  | dict : List (String × Json) → Body

/-- One answer of the transport layer to a requests.get call: either the call
raises a RequestException, or a response with status code, headers and body
arrives. -/
inductive HttpResp where
  | exn : HttpResp
  | resp : Nat → List (String × String) → Body → HttpResp

/-- ASCII lowercase of a char code (header names are ASCII). -/
def lowNat (n : Nat) : Nat := if 65 ≤ n ∧ n ≤ 90 then n + 32 else n

/-- A string as a case-folded key, for case-insensitive comparison. -/
def lowerKey (s : String) : List Nat := s.toList.map (fun c => lowNat c.toNat)

/-- Case-insensitive header lookup, as requests CaseInsensitiveDict.get. -/
def headersGet (headers : List (String × String)) (name : String) : Option String :=
  (headers.find? (fun p => lowerKey p.1 == lowerKey name)).map (fun p => p.2)

/-- Line 54: int(response.headers.get("Retry-After", 60)).  When the header is
absent the default 60 needs no parsing; when present the string is parsed by
int(), and `none` means ValueError. -/
def retryAfterValue (headers : List (String × String)) : Option Int :=
  match headersGet headers "Retry-After" with
  | none => some 60
  | some v => pyIntOfString v

/-- Observable actions of the tracker: each console print and each time.sleep,
in order.  Sleeps are recorded with their duration. -/
inductive Event where
  | fetching : Event
  | rateLimitNotice : Int → Event
  | backoff : Int → Event
  | requestFailed : Event
  | dataNotFound : String → List (String × Json) → Event
  | report : Json → Event
  | errorSaving : Event
  | errorLoading : Event
  | loadedCount : Nat → Event
  | trackingNotice : Int → Int → Int → Event
  | check : Nat → Nat → Event
  | waitNotice : Int → Event
  | interWait : Int → Event
  | trackingDone : Nat → Event
  | statsReport : Rat → Rat → Rat → Rat → Event

/-- The history file: missing, present but unreadable or unparseable, or a
parseable JSON array with the given entries. -/
inductive FileContent where
  | absent : FileContent
  | corrupt : FileContent
  | content : List Json → FileContent

/-- Filesystem state: the file plus whether a rewrite would succeed. -/
structure FS where
  file : FileContent
  writable : Bool

/-- Lines 18-26, load_history: sets price_history from the file when it exists
and parses; a read or parse failure is printed and the history is left as it
was (empty at construction). -/
def load_history (fs : FS) (hist : List Json) : List Json × List Event :=
  match fs.file with
  | FileContent.absent => (hist, [])
  | FileContent.corrupt => (hist, [Event.errorLoading])
  | FileContent.content xs => (xs, [Event.loadedCount xs.length])

/-- Lines 28-34, save_history: full rewrite of the file with the current
history; a write failure is printed and swallowed, the file is unchanged
(failure modelled as open() failing). -/
def save_history (fs : FS) (hist : List Json) : FS × List Event :=
  if fs.writable then ({ fs with file := FileContent.content hist }, [])
  else (fs, [Event.errorSaving])

/-- Result of one fetch_price call. -/
inductive FetchResult where
  | ok : Json → FetchResult
  | pyNone : FetchResult
  | exhausted : FetchResult
  | uncaught : PyError → FetchResult

/-- Full outcome of a fetch_price call: return value, in-memory history,
filesystem, and the trace of prints and sleeps. -/
structure FetchOut where
  result : FetchResult
  hist : List Json
  fs : FS
  events : List Event

/-- Lines 65-71: the price_data dict built on a successful fetch.  priceVal is
data[coin_id][vs_currency]; the two optional fields use dict.get with None
(JSON null) when absent. -/
def mkPriceData (ts vs_currency : String) (fields : List (String × Json)) (priceVal : Json) : Json :=
  Json.obj [("timestamp", Json.str ts),
    ("price_usd", priceVal),
    ("market_cap", (fields.lookup (vs_currency ++ "_market_cap")).getD Json.null),
    ("24h_change", (fields.lookup (vs_currency ++ "_24h_change")).getD Json.null)]

/-- Lines 36-102, fetch_price.  ts is the datetime.now() oracle for this call
(only the final, successful issue stamps an observation).  Each list element
answers one requests.get; on a 429 the function sleeps and re-issues the same
request, consuming the next element.  An empty list means the next issue is
still unanswered (exhausted).  raise_for_status raises (an HTTPError, caught
here) only for 400 <= status < 600; any other status, 1xx-3xx or a
nonconforming one of 600 and above, flows into body parsing.  Uncaught Python
errors: ValueError when int() fails on Retry-After or when time.sleep gets a
negative duration; KeyError when data[coin_id] lacks the vs_currency key;
TypeError when data[coin_id] is not a dict. -/
def fetch_price (coin_id vs_currency ts : String) (hist : List Json) (fs : FS) :
    List HttpResp → FetchOut
  | [] => ⟨FetchResult.exhausted, hist, fs, [Event.fetching]⟩
  | HttpResp.exn :: _ => ⟨FetchResult.pyNone, hist, fs, [Event.fetching, Event.requestFailed]⟩
  | HttpResp.resp status headers body :: rest =>
    if status = 429 then
      match retryAfterValue headers with
      | none => ⟨FetchResult.uncaught PyError.valueError, hist, fs, [Event.fetching]⟩
      | some n =>
        if n < 0 then
          ⟨FetchResult.uncaught PyError.valueError, hist, fs,
            [Event.fetching, Event.rateLimitNotice n]⟩
        else
          let r := fetch_price coin_id vs_currency ts hist fs rest
          ⟨r.result, r.hist, r.fs,
            Event.fetching :: Event.rateLimitNotice n :: Event.backoff n :: r.events⟩
    else if 400 ≤ status ∧ status < 600 then
      ⟨FetchResult.pyNone, hist, fs, [Event.fetching, Event.requestFailed]⟩
    else
      match body with
      | Body.malformed => ⟨FetchResult.pyNone, hist, fs, [Event.fetching, Event.requestFailed]⟩
      | Body.dict entries =>
        match entries.lookup coin_id with
        | none =>
          ⟨FetchResult.pyNone, hist, fs,
            [Event.fetching, Event.dataNotFound coin_id entries]⟩
        | some (Json.obj fields) =>
          match fields.lookup vs_currency with
          | none => ⟨FetchResult.uncaught (PyError.keyError vs_currency), hist, fs, [Event.fetching]⟩
          | some priceVal =>
            let pd := mkPriceData ts vs_currency fields priceVal
            let hist2 := hist ++ [pd]
            let s := save_history fs hist2
            ⟨FetchResult.ok pd, hist2, s.1, [Event.fetching] ++ s.2 ++ [Event.report pd]⟩
        | some _ => ⟨FetchResult.uncaught PyError.typeError, hist, fs, [Event.fetching]⟩

/-- Line 126, entry["price_usd"] with the value used as a number by min, max
and sum: KeyError when the key is missing, TypeError when the entry is not a
dict or the value not a number. -/
def getPriceUsd : Json → Except PyError Rat
  | Json.obj fields =>
    match fields.lookup "price_usd" with
    | some (Json.num q) => Except.ok q
    | some _ => Except.error PyError.typeError
    | none => Except.error (PyError.keyError "price_usd")
  | _ => Except.error PyError.typeError

/-- Line 126: the list comprehension over the whole history. -/
def pricesOf (hist : List Json) : Except PyError (List Rat) :=
  hist.mapM getPriceUsd

/-- Lines 125-135: the summary statistics block.  Runs only when more than one
entry is in history; min, max, sum are Python folds over the price list, the
average divides by the length. -/
def computeStats (hist : List Json) : Except PyError (List Event) :=
  if hist.length > 1 then
    match pricesOf hist with
    | Except.error e => Except.error e
    | Except.ok [] => Except.ok []
    | Except.ok (p :: ps) =>
      let mn := ps.foldl min p
      let mx := ps.foldl max p
      let avg := ((p :: ps).foldl (· + ·) 0) / (((p :: ps).length : Rat))
      Except.ok [Event.statsReport mn mx avg (mx - mn)]
  else Except.ok []

/-- How a tracking run can fail to complete: an exception escaped, or a fetch
is still in flight (its request was never answered) and, with no network
timeout, the whole loop is blocked forever at that point. -/
inductive TrackStop where
  | raised : PyError → TrackStop
  | blocked : TrackStop
deriving DecidableEq

/-- The loop-stopping condition a fetch outcome causes, if any: an uncaught
exception propagates, an in-flight fetch blocks forever; a returned fetch
(observation or None) lets the loop continue. -/
def FetchResult.stopOf : FetchResult → Option TrackStop
  | FetchResult.uncaught e => some (TrackStop.raised e)
  | FetchResult.exhausted => some TrackStop.blocked
  | _ => none

/-- Outcome of track_price_changes: why the run stopped early (if it did),
final history, filesystem, and the event trace up to that point.  On
TrackStop.blocked the trace ends inside the blocking fetch and nothing after
it (sleeps, later checks, completion notice, statistics) ever happens. -/
structure TrackOut where
  err : Option TrackStop
  hist : List Json
  fs : FS
  events : List Event

/-- Lines 114-120, the scheduling loop, processing the remaining check indices
(range num_checks).  Each check calls fetch_price with the defaults
("bitcoin", "usd"); the oracle list supplies per-check timestamp and
responses.  After every check but the last the loop prints the wait notice
and sleeps interval (ValueError if interval is negative).  An exception from
a fetch aborts the loop; a fetch whose request is never answered blocks it
forever. -/
def trackLoop (interval : Int) (n : Nat) (oracles : List (String × List HttpResp)) :
    List Nat → List Json → FS → TrackOut
  | [], hist, fs => ⟨none, hist, fs, []⟩
  | i :: is, hist, fs =>
    let o := oracles.getD i ("", [])
    let f := fetch_price "bitcoin" "usd" o.1 hist fs o.2
    match f.result.stopOf with
    | some s => ⟨some s, f.hist, f.fs, Event.check (i + 1) n :: f.events⟩
    | none =>
      if i < n - 1 then
        if interval < 0 then
          ⟨some (TrackStop.raised PyError.valueError), f.hist, f.fs,
            (Event.check (i + 1) n :: f.events) ++ [Event.waitNotice interval]⟩
        else
          let r := trackLoop interval n oracles is f.hist f.fs
          ⟨r.err, r.hist, r.fs,
            (Event.check (i + 1) n :: f.events) ++
              [Event.waitNotice interval, Event.interWait interval] ++ r.events⟩
      else
        let r := trackLoop interval n oracles is f.hist f.fs
        ⟨r.err, r.hist, r.fs, (Event.check (i + 1) n :: f.events) ++ r.events⟩

/-- Lines 104-135, track_price_changes.  num_checks = duration // interval is
Python floor division, raising ZeroDivisionError when interval = 0 before
anything is printed or fetched; range(num_checks) is empty when num_checks is
not positive.  Only when every check of the loop returned does the completion
line print and the statistics block run. -/
def track_price_changes (interval duration : Int) (hist : List Json) (fs : FS)
    (oracles : List (String × List HttpResp)) : TrackOut :=
  if interval = 0 then ⟨some (TrackStop.raised PyError.zeroDivisionError), hist, fs, []⟩
  else
    let nInt := Int.fdiv duration interval
    let n := nInt.toNat
    let l := trackLoop interval n oracles (List.range n) hist fs
    let evs0 := Event.trackingNotice interval duration nInt :: l.events
    match l.err with
    | some s => ⟨some s, l.hist, l.fs, evs0⟩
    | none =>
      match computeStats l.hist with
      | Except.error e =>
        ⟨some (TrackStop.raised e), l.hist, l.fs, evs0 ++ [Event.trackingDone l.hist.length]⟩
      | Except.ok sevs =>
        ⟨none, l.hist, l.fs, evs0 ++ [Event.trackingDone l.hist.length] ++ sevs⟩

/-- Responses on which fetch_price raises no uncaught exception: a 429 must
carry no Retry-After header (default 60) or one that int() parses to a
nonnegative value, and any payload that is parsed (every status outside 429
and the raise_for_status window 400-599) and has the requested asset must
bind it to a dict containing the quote-currency key. -/
def goodResp (coin_id vs_currency : String) : HttpResp → Bool
  | HttpResp.exn => true
  | HttpResp.resp status headers body =>
    if status = 429 then
      match retryAfterValue headers with
      | some n => decide (0 ≤ n)
      | none => false
    else if 400 ≤ status ∧ status < 600 then true
    else
      match body with
      | Body.malformed => true
      | Body.dict entries =>
        match entries.lookup coin_id with
        | none => true
        | some (Json.obj fields) => (fields.lookup vs_currency).isSome
        | some _ => false

/-- A response with HTTP status 429, whatever its headers and body. -/
def rateLimited429 : HttpResp → Bool
  | HttpResp.resp status _ _ => status == 429
  | _ => false

/-- The rate-limit sleep of fetch_price. -/
def isBackoff : Event → Bool
  | Event.backoff _ => true
  | _ => false

/-- Sample filesystem: no prior history file, writable. -/
def fsA : FS := ⟨FileContent.absent, true⟩

/-- Sample filesystem: no prior history file, not writable. -/
def fsRO : FS := ⟨FileContent.absent, false⟩

/-- Sample successful response: bitcoin at 5 usd, no optional fields. -/
def okResp : HttpResp :=
  HttpResp.resp 200 [] (Body.dict [("bitcoin", Json.obj [("usd", Json.num 5)])])

/-- Sample 429 response with no Retry-After header. -/
def r429 : HttpResp := HttpResp.resp 429 [] (Body.dict [])

/-- Sample well-formed observation at a given price. -/
def obsAt (p : Rat) : Json :=
  Json.obj [("timestamp", Json.str "t"), ("price_usd", Json.num p),
    ("market_cap", Json.null), ("24h_change", Json.null)]

theorem fetch_price_hist_extends (coin_id vs_currency ts : String) :
    ∀ (rs : List HttpResp) (hist : List Json) (fs : FS),
      (fetch_price coin_id vs_currency ts hist fs rs).hist = hist ∨
      ∃ x, (fetch_price coin_id vs_currency ts hist fs rs).hist = hist ++ [x] := by
  intro rs
  induction rs with
  | nil => intro hist fs; left; rfl
  | cons r rest ih =>
    intro hist fs
    cases r with
    | exn => left; rfl
    | resp status headers body =>
      by_cases h429 : status = 429
      · subst h429
        cases hra : retryAfterValue headers with
        | none => left; simp [fetch_price, hra]
        | some n =>
          by_cases hn : n < 0
          · left; simp [fetch_price, hra, hn]
          · simpa [fetch_price, hra, hn] using ih hist fs
      · by_cases h400 : 400 ≤ status ∧ status < 600
        · left; simp [fetch_price, h429, h400]
        · cases body with
          | malformed => left; simp [fetch_price, h429, h400]
          | dict entries =>
            cases hlk : entries.lookup coin_id with
            | none => left; simp [fetch_price, h429, h400, hlk]
            | some v =>
              cases v with
              | obj fields =>
                cases hlk2 : fields.lookup vs_currency with
                | none => left; simp [fetch_price, h429, h400, hlk, hlk2]
                | some priceVal =>
                  right
                  exact ⟨mkPriceData ts vs_currency fields priceVal,
                    by simp [fetch_price, h429, h400, hlk, hlk2]⟩
              | null => left; simp [fetch_price, h429, h400, hlk]
              | bool b => left; simp [fetch_price, h429, h400, hlk]
              | num q => left; simp [fetch_price, h429, h400, hlk]
              | str s => left; simp [fetch_price, h429, h400, hlk]
              | arr xs => left; simp [fetch_price, h429, h400, hlk]

theorem trackLoop_cons_err (interval : Int) (n : Nat)
    (oracles : List (String × List HttpResp)) (i : Nat) (is : List Nat)
    (hist : List Json) (fs : FS) (s : TrackStop)
    (hstop : (fetch_price "bitcoin" "usd" (oracles.getD i ("", [])).1 hist fs
      (oracles.getD i ("", [])).2).result.stopOf = some s) :
    trackLoop interval n oracles (i :: is) hist fs =
      (let f := fetch_price "bitcoin" "usd" (oracles.getD i ("", [])).1 hist fs
        (oracles.getD i ("", [])).2
       ⟨some s, f.hist, f.fs, Event.check (i + 1) n :: f.events⟩) := by
  rw [trackLoop]
  simp only [hstop]

theorem trackLoop_cons (interval : Int) (n : Nat)
    (oracles : List (String × List HttpResp)) (i : Nat) (is : List Nat)
    (hist : List Json) (fs : FS)
    (hstop : (fetch_price "bitcoin" "usd" (oracles.getD i ("", [])).1 hist fs
      (oracles.getD i ("", [])).2).result.stopOf = none) :
    trackLoop interval n oracles (i :: is) hist fs =
      (let f := fetch_price "bitcoin" "usd" (oracles.getD i ("", [])).1 hist fs
        (oracles.getD i ("", [])).2
       let r := trackLoop interval n oracles is f.hist f.fs
       if i < n - 1 then
         if interval < 0 then
           ⟨some (TrackStop.raised PyError.valueError), f.hist, f.fs,
             (Event.check (i + 1) n :: f.events) ++ [Event.waitNotice interval]⟩
         else
           ⟨r.err, r.hist, r.fs,
             (Event.check (i + 1) n :: f.events) ++
               [Event.waitNotice interval, Event.interWait interval] ++ r.events⟩
       else ⟨r.err, r.hist, r.fs, (Event.check (i + 1) n :: f.events) ++ r.events⟩) := by
  rw [trackLoop]
  simp only [hstop]

theorem trackLoop_hist_extends (interval : Int) (n : Nat)
    (oracles : List (String × List HttpResp)) :
    ∀ (is : List Nat) (hist : List Json) (fs : FS),
      hist <+: (trackLoop interval n oracles is hist fs).hist := by
  intro is
  induction is with
  | nil => intro hist fs; exact List.prefix_rfl
  | cons i is ih =>
    intro hist fs
    have hf := fetch_price_hist_extends "bitcoin" "usd" (oracles.getD i ("", [])).1
      (oracles.getD i ("", [])).2 hist fs
    have hpre : hist <+: (fetch_price "bitcoin" "usd" (oracles.getD i ("", [])).1 hist fs
        (oracles.getD i ("", [])).2).hist := by
      rcases hf with h | ⟨x, h⟩
      · rw [h]
      · rw [h]; exact List.prefix_append hist [x]
    cases hstop : (fetch_price "bitcoin" "usd" (oracles.getD i ("", [])).1 hist fs
        (oracles.getD i ("", [])).2).result.stopOf with
    | some s =>
      rw [trackLoop_cons_err interval n oracles i is hist fs s hstop]
      exact hpre
    | none =>
      rw [trackLoop_cons interval n oracles i is hist fs hstop]
      by_cases hlast : i < n - 1
      · by_cases hneg : interval < 0
        · simp only [if_pos hlast, if_pos hneg]
          exact hpre
        · simp only [if_pos hlast, if_neg hneg]
          exact hpre.trans (ih _ _)
      · simp only [if_neg hlast]
        exact hpre.trans (ih _ _)

theorem track_hist_eq (interval duration : Int) (hist : List Json) (fs : FS)
    (oracles : List (String × List HttpResp)) (h0 : ¬ interval = 0) :
    (track_price_changes interval duration hist fs oracles).hist =
      (trackLoop interval (Int.fdiv duration interval).toNat oracles
        (List.range (Int.fdiv duration interval).toNat) hist fs).hist := by
  unfold track_price_changes
  rw [if_neg h0]
  simp only []
  cases herr2 : (trackLoop interval (Int.fdiv duration interval).toNat oracles
      (List.range (Int.fdiv duration interval).toNat) hist fs).err with
  | some e => simp [herr2]
  | none =>
    cases hcs : computeStats (trackLoop interval (Int.fdiv duration interval).toNat oracles
        (List.range (Int.fdiv duration interval).toNat) hist fs).hist with
    | error e => simp [herr2, hcs]
    | ok sevs => simp [herr2, hcs]

/-- Claim C10: calling track_price_changes with interval = 0 raises an
unguarded ZeroDivisionError in the num_checks = duration // interval
computation: the call terminates exceptionally before anything is printed,
any fetch is attempted, or any state is touched. -/
theorem c10_zero_interval_division (duration : Int) (hist : List Json) (fs : FS)
    (oracles : List (String × List HttpResp)) :
    track_price_changes 0 duration hist fs oracles =
      ⟨some (TrackStop.raised PyError.zeroDivisionError), hist, fs, []⟩ := by
  rfl

/-- Claim C4: on a 200 response whose JSON object lacks the requested asset
key, fetch_price reports the raw payload, returns None, and leaves the
in-memory history and the history file untouched: nothing is appended and no
save is attempted. -/
theorem c4_missing_asset_key (coin_id vs_currency ts : String) (hist : List Json) (fs : FS)
    (headers : List (String × String)) (entries : List (String × Json))
    (rest : List HttpResp)
    (habs : entries.lookup coin_id = none) :
    fetch_price coin_id vs_currency ts hist fs
        (HttpResp.resp 200 headers (Body.dict entries) :: rest) =
      ⟨FetchResult.pyNone, hist, fs,
        [Event.fetching, Event.dataNotFound coin_id entries]⟩ := by
  simp [fetch_price, habs]

theorem c4_witness :
    fetch_price "bitcoin" "usd" "t" [] fsA
        [HttpResp.resp 200 [] (Body.dict [("dogecoin", Json.null)])] =
      ⟨FetchResult.pyNone, [], fsA,
        [Event.fetching, Event.dataNotFound "bitcoin" [("dogecoin", Json.null)]]⟩ :=
  c4_missing_asset_key "bitcoin" "usd" "t" [] fsA [] [("dogecoin", Json.null)] [] (by rfl)

/-- Claim C8: saving any in-memory history and loading it back yields the
same sequence of entries in the same order, and re-saving the loaded
sequence writes an identical sequence to the store.  (The JSON text codec is
an external collaborator; the file carries the entry sequence it encodes.) -/
theorem c8_save_load_round_trip (hist h0 : List Json) (fs : FS) (hw : fs.writable = true) :
    (load_history (save_history fs hist).1 h0).1 = hist ∧
    (save_history (save_history fs hist).1
      (load_history (save_history fs hist).1 h0).1).1.file = FileContent.content hist ∧
    (save_history fs hist).1.file = FileContent.content hist := by
  simp [save_history, load_history, hw]

theorem c8_witness :
    (load_history (save_history fsA [obsAt 100, obsAt 200]).1 []).1 = [obsAt 100, obsAt 200] ∧
    (save_history (save_history fsA [obsAt 100, obsAt 200]).1
      (load_history (save_history fsA [obsAt 100, obsAt 200]).1 []).1).1.file =
        FileContent.content [obsAt 100, obsAt 200] ∧
    (save_history fsA [obsAt 100, obsAt 200]).1.file =
      FileContent.content [obsAt 100, obsAt 200] :=
  c8_save_load_round_trip [obsAt 100, obsAt 200] [] fsA (by rfl)

/-- Claim C5: on every successful fetch the observation is appended to the
in-memory history first and a full rewrite of the store with the appended
history is attempted second; when the save fails the failure is reported,
the file is unchanged, and the in-memory append stays in place. -/
theorem c5_append_then_save (coin_id vs_currency ts : String) (hist : List Json) (fs : FS)
    (headers : List (String × String)) (entries fields : List (String × Json))
    (priceVal : Json) (rest : List HttpResp)
    (hc : entries.lookup coin_id = some (Json.obj fields))
    (hp : fields.lookup vs_currency = some priceVal) :
    fetch_price coin_id vs_currency ts hist fs
        (HttpResp.resp 200 headers (Body.dict entries) :: rest) =
      ⟨FetchResult.ok (mkPriceData ts vs_currency fields priceVal),
       hist ++ [mkPriceData ts vs_currency fields priceVal],
       (save_history fs (hist ++ [mkPriceData ts vs_currency fields priceVal])).1,
       [Event.fetching] ++
         (save_history fs (hist ++ [mkPriceData ts vs_currency fields priceVal])).2 ++
         [Event.report (mkPriceData ts vs_currency fields priceVal)]⟩ ∧
    (fs.writable = false →
      (save_history fs (hist ++ [mkPriceData ts vs_currency fields priceVal])).1 = fs ∧
      (save_history fs (hist ++ [mkPriceData ts vs_currency fields priceVal])).2 =
        [Event.errorSaving]) := by
  constructor
  · simp [fetch_price, hc, hp]
  · intro hw
    simp [save_history, hw]

theorem c5_witness :
    fetch_price "bitcoin" "usd" "t" [] fsRO [okResp] =
      ⟨FetchResult.ok (mkPriceData "t" "usd" [("usd", Json.num 5)] (Json.num 5)),
       [mkPriceData "t" "usd" [("usd", Json.num 5)] (Json.num 5)],
       (save_history fsRO [mkPriceData "t" "usd" [("usd", Json.num 5)] (Json.num 5)]).1,
       [Event.fetching] ++
         (save_history fsRO [mkPriceData "t" "usd" [("usd", Json.num 5)] (Json.num 5)]).2 ++
         [Event.report (mkPriceData "t" "usd" [("usd", Json.num 5)] (Json.num 5))]⟩ ∧
    (fsRO.writable = false →
      (save_history fsRO [mkPriceData "t" "usd" [("usd", Json.num 5)] (Json.num 5)]).1 = fsRO ∧
      (save_history fsRO [mkPriceData "t" "usd" [("usd", Json.num 5)] (Json.num 5)]).2 =
        [Event.errorSaving]) :=
  c5_append_then_save "bitcoin" "usd" "t" [] fsRO [] [("bitcoin", Json.obj [("usd", Json.num 5)])]
    [("usd", Json.num 5)] (Json.num 5) [] (by rfl) (by rfl)

/-- Claim C9: the rate-limit retry is unconditional and unbounded.  First,
after consuming any finite sequence made only of (well-formed) 429
responses, fetch_price has not returned: it is still issuing the next
request with its state untouched, so under a persistently rate-limiting
server the call never returns.  Second, there is no retry cap: prepending
any number of 429 responses never changes the final outcome of the call. -/
theorem c9_unbounded_retry (coin_id vs_currency ts : String) :
    (∀ (rs : List HttpResp) (hist : List Json) (fs : FS),
      rs.all (fun r => rateLimited429 r && goodResp coin_id vs_currency r) = true →
      (fetch_price coin_id vs_currency ts hist fs rs).result = FetchResult.exhausted ∧
      (fetch_price coin_id vs_currency ts hist fs rs).hist = hist ∧
      (fetch_price coin_id vs_currency ts hist fs rs).fs = fs) ∧
    (∀ (pre rest : List HttpResp) (hist : List Json) (fs : FS),
      pre.all (fun r => rateLimited429 r && goodResp coin_id vs_currency r) = true →
      (fetch_price coin_id vs_currency ts hist fs (pre ++ rest)).result =
        (fetch_price coin_id vs_currency ts hist fs rest).result) := by
  have step : ∀ (r : HttpResp) (tail : List HttpResp) (hist : List Json) (fs : FS),
      (rateLimited429 r && goodResp coin_id vs_currency r) = true →
      ∃ n : Int, fetch_price coin_id vs_currency ts hist fs (r :: tail) =
        ⟨(fetch_price coin_id vs_currency ts hist fs tail).result,
         (fetch_price coin_id vs_currency ts hist fs tail).hist,
         (fetch_price coin_id vs_currency ts hist fs tail).fs,
         Event.fetching :: Event.rateLimitNotice n :: Event.backoff n ::
           (fetch_price coin_id vs_currency ts hist fs tail).events⟩ := by
    intro r tail hist fs hr
    rw [Bool.and_eq_true] at hr
    obtain ⟨h429b, hgoodb⟩ := hr
    cases r with
    | exn => simp [rateLimited429] at h429b
    | resp status headers body =>
      have h429 : status = 429 := by
        simpa [rateLimited429] using h429b
      subst h429
      simp only [goodResp, if_pos rfl] at hgoodb
      cases hra : retryAfterValue headers with
      | none => rw [hra] at hgoodb; exact absurd hgoodb (by simp)
      | some n =>
        rw [hra] at hgoodb
        have hneg : ¬ n < 0 := not_lt.mpr (of_decide_eq_true hgoodb)
        exact ⟨n, by simp [fetch_price, hra, hneg]⟩
  constructor
  · intro rs
    induction rs with
    | nil => intro hist fs _; exact ⟨rfl, rfl, rfl⟩
    | cons r rest ih =>
      intro hist fs hall
      rw [List.all_cons, Bool.and_eq_true] at hall
      obtain ⟨hr, hrest⟩ := hall
      obtain ⟨n, heq⟩ := step r rest hist fs hr
      rw [heq]
      exact ih hist fs hrest
  · intro pre
    induction pre with
    | nil => intro rest hist fs _; rfl
    | cons r pre ih =>
      intro rest hist fs hall
      rw [List.all_cons, Bool.and_eq_true] at hall
      obtain ⟨hr, hpre⟩ := hall
      obtain ⟨n, heq⟩ := step r (pre ++ rest) hist fs hr
      rw [List.cons_append, heq]
      exact ih rest hist fs hpre

theorem c9_witness :
    (fetch_price "bitcoin" "usd" "t" [] fsA [r429, r429, r429]).result =
        FetchResult.exhausted ∧
    (fetch_price "bitcoin" "usd" "t" [] fsA ([r429, r429, r429] ++ [okResp])).result =
      (fetch_price "bitcoin" "usd" "t" [] fsA [okResp]).result :=
  ⟨((c9_unbounded_retry "bitcoin" "usd" "t").1 [r429, r429, r429] [] fsA (by rfl)).1,
   (c9_unbounded_retry "bitcoin" "usd" "t").2 [r429, r429, r429] [okResp] [] fsA (by rfl)⟩

/-- Claim C7 counterexample: a track_price_changes call with two successful
checks appends two observations, so the operation neither leaves the history
unchanged nor appends exactly one observation at its end. -/
theorem c7_counterexample :
    (track_price_changes 100 250 [] fsA [("t1", [okResp]), ("t2", [okResp])]).hist.length = 2 ∧
    ¬ ((track_price_changes 100 250 [] fsA [("t1", [okResp]), ("t2", [okResp])]).hist = [] ∨
      ∃ x, (track_price_changes 100 250 [] fsA [("t1", [okResp]), ("t2", [okResp])]).hist = [x]) := by
  have hl : (track_price_changes 100 250 [] fsA
      [("t1", [okResp]), ("t2", [okResp])]).hist.length = 2 := by rfl
  refine ⟨hl, ?_⟩
  rintro (h | ⟨x, h⟩)
  · rw [h] at hl
    simp at hl
  · rw [h] at hl
    simp at hl

/-- Claim C7 (amended): the in-memory history is append-only after startup:
a fetch_price call leaves it unchanged or appends exactly one observation at
its end, and a track_price_changes call only extends it at the end (the
starting history is a prefix of the final history, however many observations
the run appends); existing entries are never removed, reordered, or edited
in place. -/
theorem c7_append_only (coin_id vs_currency ts : String) :
    (∀ (rs : List HttpResp) (hist : List Json) (fs : FS),
      (fetch_price coin_id vs_currency ts hist fs rs).hist = hist ∨
      ∃ x, (fetch_price coin_id vs_currency ts hist fs rs).hist = hist ++ [x]) ∧
    (∀ (interval duration : Int) (hist : List Json) (fs : FS)
        (oracles : List (String × List HttpResp)),
      hist <+: (track_price_changes interval duration hist fs oracles).hist) := by
  constructor
  · intro rs hist fs
    exact fetch_price_hist_extends coin_id vs_currency ts rs hist fs
  · intro interval duration hist fs oracles
    by_cases h0 : interval = 0
    · subst h0
      rw [show track_price_changes 0 duration hist fs oracles =
        ⟨some (TrackStop.raised PyError.zeroDivisionError), hist, fs, []⟩ from rfl]
    · rw [track_hist_eq interval duration hist fs oracles h0]
      exact trackLoop_hist_extends _ _ _ _ hist fs

end CryptoTracker
